import Mathlib

/-!
Verification of the pelikan core spec against the source.

This file shallowly embeds the parts of the repository the claims touch:

* `src/src/protocol/data/redis/parse.c`   — incremental RESP-style request parser
* `src/src/protocol/data/redis/compose.c` — request/response composer
* `src/src/storage/slab/item.c`           — slab-backed item store
* `src/deps/ccommon/src/buffer/cc_dbuf.c` — dynamic buffer growth

Bytes are `Nat` (0..255).  A `struct buf` is modelled as the full allocated
memory (`mem : List Nat`), a read cursor `rpos` and a write cursor `wpos`,
both absolute indices; `buf_rsize` is `wpos - rpos`.  Reading an index at or
past `mem.length` yields 0 (the allocated-but-never-written region; the C
code can read such bytes, e.g. in `_check_uint`, and our model fixes that
uninitialized memory to zero bytes).  Machine integers are `Nat` with an
explicit `% 2^w` wherever C arithmetic can wrap.
-/

/-- 2^64, the modulus of `uint64_t` arithmetic. -/
def U64 : Nat := 18446744073709551616

/-- 2^32, the modulus of `uint32_t` arithmetic. -/
def U32 : Nat := 4294967296

/-- UINT64_MAX. -/
def U64MAX : Nat := U64 - 1

/-- ASCII carriage return. -/
def CRb : Nat := 13

/-- ASCII line feed. -/
def LFb : Nat := 10

/-- CRLF_LEN from the C source. -/
def CRLF_LEN : Nat := 2

/-- parse_rstatus_t from parse.h: OK, EUNFIN (incomplete), EINVALID,
EEMPTY, EOTHER. -/
inductive Rstatus where
  | OK
  | EUNFIN
  | EINVALID
  | EEMPTY
  | EOTHER
deriving DecidableEq

/-- struct buf: `mem` is the allocated byte region, `rpos`/`wpos` are the
read and write cursors as absolute indices into `mem`. -/
structure Buf where
  mem : List Nat
  rpos : Nat
  wpos : Nat
deriving DecidableEq

/-- Dereference a byte pointer: memory beyond the modelled region reads 0. -/
def readByte (b : Buf) (i : Nat) : Nat := b.mem.getD i 0

/-- buf_rsize: readable bytes, `wpos - rpos`. -/
def buf_rsize (b : Buf) : Nat := b.wpos - b.rpos

/-- Build a buffer holding exactly the received bytes `s`. -/
def bufOf (s : List Nat) : Buf := ⟨s, 0, s.length⟩

/-- ctype isdigit restricted to ASCII digits. -/
def isdigit (c : Nat) : Bool := 48 ≤ c && c ≤ 57

/-- try_crlf from parse.c: at position `p` require CR LF; if only CR is
present and the next byte has not been received, report EUNFIN. -/
def try_crlf (b : Buf) (p : Nat) : Rstatus :=
  if readByte b p ≠ CRb then .EINVALID
  else if b.wpos = p + 1 then .EUNFIN
  else if readByte b (p + 1) = LFb then .OK
  else .EINVALID

/-- Digit-accumulation loop of check_uint: scan digits from position `p`,
with the overflow pre-check `*num > max/10` and `uint64_t` wrap-around on
the accumulator.  Returns the post-loop status, accumulator, and position.
Note the `buf_rsize == 0` check inside the loop body uses `rpos`, which the
loop never advances.  The loop is structurally bounded by `fuel`; since a
byte at or past `mem.length` reads 0 (not a digit), any `fuel` exceeding
`mem.length - p` makes the zero-fuel branch unreachable, and that branch
returns exactly what the loop's normal exit would. -/
def check_uint_loop (b : Buf) (mx : Nat) : Nat → Nat → Nat → Rstatus × Nat × Nat
  | 0, num, p => (.OK, num, p)
  | fuel + 1, num, p =>
    if isdigit (readByte b p) then
      if buf_rsize b = 0 then (.EUNFIN, num, p)
      else if mx / 10 < num then (.EINVALID, num, p)
      else check_uint_loop b mx fuel ((num * 10 + (readByte b p - 48)) % U64) (p + 1)
    else (.OK, num, p)

/-- check_uint from parse.c: parse decimal digits from `rpos` up to a CRLF;
EEMPTY when no digit, EINVALID on overflow pre-check or a non-CRLF
terminator; on success advance `rpos` past the CRLF. -/
def check_uint (b : Buf) (mx : Nat) : Rstatus × Nat × Buf :=
  match check_uint_loop b mx (b.mem.length + 1) 0 b.rpos with
  | (.OK, num, p) =>
    if p = b.rpos then (.EEMPTY, num, b)
    else if try_crlf b p ≠ .OK then (.EINVALID, num, b)
    else (.OK, num, { b with rpos := p + CRLF_LEN })
  | (st, num, _) => (st, num, b)

/-- struct bstring as emitted by the parser: a zero-copy view into the
buffer, `start` an absolute index and `len` its `uint32_t` length. -/
structure Bstr where
  start : Nat
  len : Nat
deriving DecidableEq

/-- bstring_init: zeroed view. -/
def bstr0 : Bstr := ⟨0, 0⟩

/-- Bytes a view denotes, read from a buffer's memory. -/
def bstrBytes (b : Buf) (t : Bstr) : List Nat := (b.mem.drop t.start).take t.len

/-- parse_bulk from parse.c: require `$`, parse the length with
check_uint, then require `length + CRLF_LEN` readable bytes; expose the
payload as a view and advance past the trailing CRLF.  The view's `len`
field is a `uint32_t`, hence the `% U32`; the readable-size comparison is
done in `uint64_t`, hence the `% U64`. -/
def parse_bulk (b : Buf) : Rstatus × Bstr × Buf :=
  if readByte b b.rpos ≠ 36 then (.EINVALID, bstr0, b)
  else if b.wpos = b.rpos + 1 then (.EUNFIN, bstr0, b)
  else
    let b1 : Buf := { b with rpos := b.rpos + 1 }
    match check_uint b1 U64MAX with
    | (.OK, bulklen, b2) =>
      if buf_rsize b2 < (bulklen + CRLF_LEN) % U64 then (.EUNFIN, bstr0, b2)
      else
        let tlen := bulklen % U32
        (.OK, ⟨b2.rpos, tlen⟩, { b2 with rpos := b2.rpos + tlen + CRLF_LEN })
    | (st, _, b2) => (st, bstr0, b2)

/-- CC_UINT64_MAXLEN from ccommon cc_print.h (header not under src/):
the maximal decimal width of a uint64, 20. -/
def CC_UINT64_MAXLEN : Nat := 20

/-- Digit-validation loop of parse_bulk_numeric: walk `remaining` bytes
from absolute position `pos`, rejecting non-digits and the overflow
pre-check, accumulating with `uint64_t` wrap-around. -/
def bulk_num_loop (b : Buf) (mx : Nat) : Nat → Nat → Nat → Rstatus × Nat
  | _, 0, num => (.OK, num)
  | pos, r + 1, num =>
    let c := readByte b pos
    if ¬ isdigit c then (.EINVALID, num)
    else if mx / 10 < num then (.EINVALID, num)
    else bulk_num_loop b mx (pos + 1) r ((num * 10 + (c - 48)) % U64)

/-- parse_bulk_numeric from parse.c: parse a bulk, reject a payload wider
than CC_UINT64_MAXLEN, then validate all digits and accumulate with the
overflow pre-check. -/
def parse_bulk_numeric (b : Buf) (mx : Nat) : Rstatus × Nat × Buf :=
  match parse_bulk b with
  | (.OK, s, b') =>
    if CC_UINT64_MAXLEN < s.len then (.EINVALID, 0, b')
    else
      match bulk_num_loop b' mx s.start s.len 0 with
      | (st, num) => (st, num, b')
  | (st, _, b') => (st, 0, b')

/-- request_type_t from request.h. -/
inductive ReqType where
  | UNKNOWN
  | GET
  | MGET
  | SET
  | DELETE
  | INCR
  | DECR
  | FLUSH
  | QUIT
deriving DecidableEq

/-- Parser phase: first line (HDR) then, conditionally, the value (VAL). -/
inductive Pstate where
  | REQ_HDR
  | REQ_VAL
deriving DecidableEq

/-- Request lifecycle states relevant to parsing. -/
inductive Rstate where
  | REQ_PARSING
  | REQ_PARSED
deriving DecidableEq

/-- struct request, the fields the parser and composer touch. -/
structure Req where
  type : ReqType
  keys : List Bstr
  vstr : Bstr
  vlen : Nat
  delta : Nat
  noreply : Bool
  val : Bool
  pstate : Pstate
  rstate : Rstate
  cerror : Bool
deriving DecidableEq

/-- request_reset (request.c is not under src/; modelled from the spec's
Request data model and the unit tests): zeroed fields, empty key array,
parsing starts at the HDR phase. -/
def req_reset : Req :=
  { type := .UNKNOWN, keys := [], vstr := bstr0, vlen := 0, delta := 0,
    noreply := false, val := false, pstate := .REQ_HDR,
    rstate := .REQ_PARSING, cerror := false }

/-- MAX_BATCH_SIZE from request.h.  Modelled from the spec: the header is
not under src/; the spec only requires `keys` to be bounded by this
constant, whose concrete value the claims do not depend on. -/
def MAX_BATCH_SIZE : Nat := 50

/-- str_eq_at: the strNcmp macros from cc_util.h, comparing `cs` against
the bytes at `start`. -/
def str_eq_at (b : Buf) : Nat → List Nat → Bool
  | _, [] => true
  | start, c :: cs => (readByte b start = c) && str_eq_at b (start + 1) cs

/-- Bytes of the ASCII string get. -/
def getBytes : List Nat := [103, 101, 116]

/-- Bytes of the ASCII string set. -/
def setBytes : List Nat := [115, 101, 116]

/-- Bytes of the ASCII string mget. -/
def mgetBytes : List Nat := [109, 103, 101, 116]

/-- Bytes of the ASCII string quit. -/
def quitBytes : List Nat := [113, 117, 105, 116]

/-- Bytes of the ASCII string flush. -/
def flushBytes : List Nat := [102, 108, 117, 115, 104]

/-- Bytes of the ASCII string delete. -/
def deleteBytes : List Nat := [100, 101, 108, 101, 116, 101]

/-- Bytes of the ASCII string incrby. -/
def incrbyBytes : List Nat := [105, 110, 99, 114, 98, 121]

/-- Bytes of the ASCII string decrby. -/
def decrbyBytes : List Nat := [100, 101, 99, 114, 98, 121]

/-- check_req_type from parse.c: read the verb with parse_bulk, then
recognize it with length-bucketed string compares; when nothing matches
the request keeps its incoming type, and EINVALID is reported exactly when
the resulting type is UNKNOWN. -/
def check_req_type (req : Req) (b : Buf) : Rstatus × Req × Buf :=
  match parse_bulk b with
  | (.OK, t, b') =>
    let ty : ReqType :=
      if t.len = 3 then
        if str_eq_at b' t.start getBytes then .GET
        else if str_eq_at b' t.start setBytes then .SET
        else req.type
      else if t.len = 4 then
        if str_eq_at b' t.start mgetBytes then .MGET
        else if str_eq_at b' t.start quitBytes then .QUIT
        else req.type
      else if t.len = 5 then
        if str_eq_at b' t.start flushBytes then .FLUSH
        else req.type
      else if t.len = 6 then
        if str_eq_at b' t.start deleteBytes then .DELETE
        else if str_eq_at b' t.start incrbyBytes then .INCR
        else if str_eq_at b' t.start decrbyBytes then .DECR
        else req.type
      else req.type
    if ty = .UNKNOWN then (.EINVALID, { req with type := ty }, b')
    else (.OK, { req with type := ty }, b')
  | (st, _, b') => (st, req, b')

/-- push_key from parse.c: reject with EOTHER when the batch is full,
else append the key view. -/
def push_key (req : Req) (t : Bstr) : Rstatus × Req :=
  if MAX_BATCH_SIZE ≤ req.keys.length then (.EOTHER, req)
  else (.OK, { req with keys := req.keys ++ [t] })

/-- subrequest_retrieve from parse.c: loop parse_bulk, pushing each key;
an Empty token ends the loop with OK when at least one key was read and
EOTHER otherwise.  push_key is inlined (it appends when the batch is not
full) so the loop is structurally bounded by `fuel`; each continuing
iteration grows `keys` and the loop stops once MAX_BATCH_SIZE keys are
held, so any `fuel` exceeding `MAX_BATCH_SIZE + 1 - keys.length` makes the
zero-fuel branch unreachable. -/
def subrequest_retrieve_loop (req : Req) (b : Buf) : Nat → Rstatus × Req × Buf
  | 0 => (.EOTHER, req, b)
  | fuel + 1 =>
    match parse_bulk b with
    | (.OK, t, b') =>
      if MAX_BATCH_SIZE ≤ req.keys.length then (.EOTHER, req, b')
      else subrequest_retrieve_loop { req with keys := req.keys ++ [t] } b' fuel
    | (.EEMPTY, _, b') =>
      if req.keys.length = 0 then (.EOTHER, req, b') else (.OK, req, b')
    | (st, _, b') => (st, req, b')

/-- subrequest_retrieve: entry point of the key loop. -/
def subrequest_retrieve (req : Req) (b : Buf) : Rstatus × Req × Buf :=
  subrequest_retrieve_loop req b (MAX_BATCH_SIZE + 1 - req.keys.length)

/-- subrequest_delete from parse.c: one key. -/
def subrequest_delete (req : Req) (b : Buf) : Rstatus × Req × Buf :=
  match parse_bulk b with
  | (.OK, t, b') =>
    match push_key req t with
    | (st, req') => (st, req', b')
  | (st, _, b') => (st, req, b')

/-- subrequest_arithmetic from parse.c: one key, then a numeric bulk
parsed with max UINT64_MAX into `delta` (assigned only on OK). -/
def subrequest_arithmetic (req : Req) (b : Buf) : Rstatus × Req × Buf :=
  match parse_bulk b with
  | (.OK, t, b') =>
    match push_key req t with
    | (.OK, req') =>
      match parse_bulk_numeric b' U64MAX with
      | (.OK, delta, b2) => (.OK, { req' with delta := delta }, b2)
      | (st, _, b2) => (st, req', b2)
    | (st, req') => (st, req', b')
  | (st, _, b') => (st, req, b')

/-- Tail of parse_req_hdr: on a non-OK subrequest status the read cursor
is reset to `old`. -/
def hdr_finish (old : Nat) : Rstatus × Req × Buf → Rstatus × Req × Buf
  | (st, r, b) => if st = .OK then (st, r, b) else (st, r, { b with rpos := old })

/-- parse_req_hdr from parse.c: recognize the verb, then dispatch to the
per-command subparser; GET/MGET/DELETE/INCR/DECR failures restore the read
cursor via the function's tail, while a verb-recognition failure returns
early without restoring, FLUSH/QUIT take no arguments, and SET (like the
impossible UNKNOWN) falls into the switch default, returning EOTHER before
the cursor-restoring tail is reached. -/
def parse_req_hdr (req : Req) (b : Buf) : Rstatus × Req × Buf :=
  let old := b.rpos
  match check_req_type req b with
  | (.OK, req1, b1) =>
    match req1.type with
    | .GET => hdr_finish old (subrequest_retrieve req1 b1)
    | .MGET => hdr_finish old (subrequest_retrieve req1 b1)
    | .DELETE => hdr_finish old (subrequest_delete req1 b1)
    | .INCR => hdr_finish old (subrequest_arithmetic req1 b1)
    | .DECR => hdr_finish old (subrequest_arithmetic req1 b1)
    | .FLUSH => (.OK, req1, b1)
    | .QUIT => (.OK, req1, b1)
    | .SET => (.EOTHER, req1, b1)
    | .UNKNOWN => (.EOTHER, req1, b1)
  | (st, req1, b1) => (st, req1, b1)

/-- Body of parse_req: HDR phase, then possibly the VAL phase; `vstr` and
`vlen` are assigned from the (zero-initialized on failure) bulk result
even when the VAL-phase parse_bulk does not return OK. -/
def parse_req_core (req : Req) (b : Buf) : Rstatus × Req × Buf :=
  match req.pstate with
  | .REQ_HDR =>
    match parse_req_hdr req b with
    | (.OK, r1, b1) =>
      let r2 := if r1.val then { r1 with pstate := .REQ_VAL } else r1
      match r2.pstate with
      | .REQ_VAL =>
        match parse_bulk b1 with
        | (.OK, s, b2) =>
          (.OK, { r2 with vstr := s, vlen := s.len, rstate := .REQ_PARSED }, b2)
        | (st, s, b2) => (st, { r2 with vstr := s, vlen := s.len }, b2)
      | .REQ_HDR => (.OK, { r2 with rstate := .REQ_PARSED }, b1)
    | (st, r1, b1) => (st, r1, b1)
  | .REQ_VAL =>
    match parse_bulk b with
    | (.OK, s, b2) =>
      (.OK, { req with vstr := s, vlen := s.len, rstate := .REQ_PARSED }, b2)
    | (st, s, b2) => (st, { req with vstr := s, vlen := s.len }, b2)

/-- parse_req from parse.c: run the state machine and flag `cerror` on any
status other than OK and EUNFIN. -/
def parse_req (req : Req) (b : Buf) : Rstatus × Req × Buf :=
  match parse_req_core req b with
  | (st, r, b') =>
    if st ≠ .OK ∧ st ≠ .EUNFIN then (st, { r with cerror := true }, b')
    else (st, r, b')

/-- Serialized quit request, the frame compose_req emits for QUIT. -/
def quitFrame : List Nat := [36, 52, 13, 10, 113, 117, 105, 116, 13, 10]

/-- Decimal digit expansion, most significant first: what cc_snprintf
emits for an unsigned value.  Structural fuel; `n` itself bounds the digit
count, so the zero-fuel branch is unreachable from `decBytes`. -/
def decBytesAux : Nat → Nat → List Nat → List Nat
  | 0, _, acc => acc
  | _, 0, acc => acc
  | fuel + 1, n, acc => decBytesAux fuel (n / 10) ((48 + n % 10) :: acc)

/-- Decimal ASCII bytes of `n` (48 is the digit 0). -/
def decBytes (n : Nat) : List Nat :=
  if n = 0 then [48] else decBytesAux n n []

/-- write_bulk from compose.c: `$`, decimal length, CRLF, payload, CRLF.
The length is printed from the view's `uint32_t` len, which for every
payload the composer emits equals the payload's length. -/
def write_bulk (s : List Nat) : List Nat :=
  36 :: decBytes s.length ++ [CRb, LFb] ++ s ++ [CRb, LFb]

/-- write_length from compose.c: `*`, decimal count, CRLF (the count is an
int64; the composer only passes the nonnegative values 1 + nkeys and
2 + nkeys). -/
def write_length (n : Nat) : List Nat :=
  42 :: decBytes n ++ [CRb, LFb]

/-- A request the system can produce, as handed to compose_req: its type
and the concrete bytes of its keys, value and delta. -/
structure SysReq where
  type : ReqType
  keys : List (List Nat)
  value : List Nat
  delta : Nat
deriving DecidableEq

/-- req_strings from request.c (not under src/; modelled from the spec's
command table in section 4.2 and the serialized frames asserted by
test/protocol/data/redis/check_redis.c). -/
def req_string : ReqType → List Nat
  | .GET => getBytes
  | .SET => setBytes
  | .MGET => mgetBytes
  | .QUIT => quitBytes
  | .FLUSH => flushBytes
  | .DELETE => deleteBytes
  | .INCR => incrbyBytes
  | .DECR => decrbyBytes
  | .UNKNOWN => []

/-- Delta payload of the INCR/DECR composer: cc_snprintf prints the delta
into a CC_UINT64_MAXLEN-byte scratch buffer, truncating to 19 characters
plus a NUL terminator, while the view length keeps snprintf's untruncated
return value — so a 20-digit delta is emitted as 19 digits and a 0 byte. -/
def deltaPayload (delta : Nat) : List Nat :=
  let d := decBytes delta
  if d.length ≤ CC_UINT64_MAXLEN - 1 then d
  else d.take (CC_UINT64_MAXLEN - 1) ++ [0]

/-- compose_req from compose.c, as the byte sequence appended to the
outbound buffer.  FLUSH/QUIT: only the verb bulk.  GET/MGET/DELETE: an
array header counting 1 + nkeys, the verb bulk, then one bulk per key.
INCR/DECR: an array header counting 2 + nkeys, the verb bulk, the first
key's bulk, then the printed delta.  SET: an array header counting
2 + nkeys, the verb bulk, the first key's bulk, then the value bulk.
Buffer pre-sizing (check_buf_size / ENOMEM) concerns capacity, modelled
with dbuf below; the emitted bytes are the same whenever composition
succeeds. -/
def compose_req (r : SysReq) : List Nat :=
  match r.type with
  | .FLUSH => write_bulk (req_string r.type)
  | .QUIT => write_bulk (req_string r.type)
  | .GET =>
    write_length (1 + r.keys.length) ++ write_bulk (req_string r.type)
      ++ (r.keys.map write_bulk).flatten
  | .MGET =>
    write_length (1 + r.keys.length) ++ write_bulk (req_string r.type)
      ++ (r.keys.map write_bulk).flatten
  | .DELETE =>
    write_length (1 + r.keys.length) ++ write_bulk (req_string r.type)
      ++ (r.keys.map write_bulk).flatten
  | .INCR =>
    write_length (2 + r.keys.length) ++ write_bulk (req_string r.type)
      ++ write_bulk (r.keys.headD []) ++ write_bulk (deltaPayload r.delta)
  | .DECR =>
    write_length (2 + r.keys.length) ++ write_bulk (req_string r.type)
      ++ write_bulk (r.keys.headD []) ++ write_bulk (deltaPayload r.delta)
  | .SET =>
    write_length (2 + r.keys.length) ++ write_bulk (req_string r.type)
      ++ write_bulk (r.keys.headD []) ++ write_bulk r.value
  | .UNKNOWN => []

/-- Bytes of the ASCII string foo. -/
def fooBytes : List Nat := [102, 111, 111]

/-- Scenario S2's input, the serialization of a single-key GET (22 bytes,
although the spec's scenario table calls it 24). -/
def s2Bytes : List Nat :=
  [42, 50, 13, 10, 36, 51, 13, 10, 103, 101, 116, 13, 10,
   36, 51, 13, 10, 102, 111, 111, 13, 10]

/-- Decimal digits of 2^64, the smallest value exceeding UINT64_MAX. -/
def overflowDigits : List Nat :=
  [49, 56, 52, 52, 54, 55, 52, 52, 48, 55, 51, 55, 48, 57, 53, 53, 49, 54, 49, 54]

/-- A 20-digit bulk carrying 2^64. -/
def overflowBulk : List Nat :=
  [36, 50, 48, 13, 10] ++ overflowDigits ++ [13, 10]

/-- A complete incrby request frame whose delta field carries 2^64. -/
def incrOverflowFrame : List Nat :=
  [36, 54, 13, 10] ++ incrbyBytes ++ [13, 10, 36, 51, 13, 10] ++ fooBytes
    ++ [13, 10] ++ overflowBulk

/-- A GET frame whose key list ends before any key: verb bulk, then an
Empty token (`$` immediately followed by CRLF). -/
def getEmptyFrame : List Nat :=
  [36, 51, 13, 10, 103, 101, 116, 13, 10, 36, 13, 10]

/-- item_rstatus_t: outcomes of item operations (the ENOMEM outcome of a
failed slab allocation is declared but not produced by this model, which
treats slab_get_item as always finding a slot: the claims under
verification concern the success and oversize paths). -/
inductive ItemRstatus where
  | ITEM_OK
  | ITEM_EOVERSIZED
  | ITEM_ENOMEM
deriving DecidableEq

/-- Slab-class configuration.  Modelled from the spec: slab.c is not under
src/; the spec's class table is a list of slot sizes built by the growth
factor, and `hdr_size` is the item header plus optional CAS overhead that
item_ntotal adds to klen + vlen. -/
structure SlabCfg where
  classes : List Nat
  hdr_size : Nat
deriving DecidableEq

/-- slab_id.  Modelled from the spec: index of the smallest class whose
slot size is at least `n`, none (SLABCLASS_INVALID_ID) when `n` exceeds
the largest class. -/
def slab_id (cfg : SlabCfg) (n : Nat) : Option Nat :=
  cfg.classes.findIdx? (fun s => n ≤ s)

/-- item_ntotal: header (with optional CAS) plus key plus value bytes. -/
def item_ntotal (cfg : SlabCfg) (klen vlen : Nat) : Nat :=
  cfg.hdr_size + klen + vlen

/-- item_slabid macro from slab.h: the class fitting a key/value pair. -/
def item_slabid (cfg : SlabCfg) (klen vlen : Nat) : Option Nat :=
  slab_id cfg (item_ntotal cfg klen vlen)

/-- struct item, with the key and value byte ranges of the slot
represented as byte lists (the memcpy offsets of item.c implement exactly
the concatenations used below). -/
structure SItem where
  key : List Nat
  val : List Nat
  id : Nat
  is_raligned : Bool
  dataflag : Nat
  create_at : Nat
  expire_at : Nat
  cas : Nat
deriving DecidableEq

/-- Process-wide mutable state of the item layer: the hash table (a list
of linked items, at most one per key), the slots returned to class free
queues by unlinks, the lazily applied flush timestamp, and the CAS
counter.  The hash table and free queues are modelled from the spec
(hashtable and slab modules are not under src/); flush_at is the static
from item.c. -/
structure Store where
  tbl : List SItem
  freeq : List SItem
  flush_at : Nat
  cas_counter : Nat
deriving DecidableEq

/-- hashtable_get.  Modelled from the spec: walk the chain with byte-wise
key comparison. -/
def hashtable_get (st : Store) (key : List Nat) : Option SItem :=
  st.tbl.find? (fun x => x.key = key)

/-- hashtable_put.  Modelled from the spec: insert at the head of the
chain and unlink any prior entry with the same key, returning it to its
free queue. -/
def hashtable_put (it : SItem) (st : Store) : Store :=
  { st with
    tbl := it :: st.tbl.filter (fun x => ¬ x.key = it.key),
    freeq := st.tbl.filter (fun x => x.key = it.key) ++ st.freeq }

/-- item_expired from item.c: positive expire_at in the past, or created
at or before the flush timestamp; `now` is the time_now() value. -/
def item_expired (st : Store) (now : Nat) (it : SItem) : Bool :=
  (0 < it.expire_at && it.expire_at < now) || it.create_at ≤ st.flush_at

/-- item_unlink from item.c: remove the (linked) item from the hash table
and push its slot onto the class free queue via slab_put_item. -/
def item_unlink (it : SItem) (st : Store) : Store :=
  { st with
    tbl := st.tbl.filter (fun x => ¬ x.key = it.key),
    freeq := it :: st.freeq }

/-- item_link from item.c: mark linked and put into the hash table. -/
def item_link (it : SItem) (st : Store) : Store := hashtable_put it st

/-- item_get from item.c: hash lookup, then lazy expiry — an expired hit
is unlinked and reported as absent. -/
def item_get (st : Store) (key : List Nat) (now : Nat) : Option SItem × Store :=
  match hashtable_get st key with
  | none => (none, st)
  | some it =>
    if item_expired st now it then (none, item_unlink it st)
    else (some it, st)

/-- item_insert from item.c: allocate in the fitting class (EOVERSIZED
when none fits), copy key and value left-aligned, stamp create_at with
the current time and a fresh CAS token (item_set_cas is modelled from the
spec as the next value of the process-wide counter), then link. -/
def item_insert (cfg : SlabCfg) (st : Store) (key v : List Nat)
    (dataflag expire_at now : Nat) : ItemRstatus × Store :=
  match item_slabid cfg key.length v.length with
  | none => (.ITEM_EOVERSIZED, st)
  | some id =>
    let it : SItem :=
      { key := key, val := v, id := id, is_raligned := false,
        dataflag := dataflag, create_at := now, expire_at := expire_at,
        cas := st.cas_counter + 1 }
    (.ITEM_OK, item_link it { st with cas_counter := st.cas_counter + 1 })

/-- Replace the table entry holding `key` (in-place item mutation). -/
def tbl_replace (tbl : List SItem) (key : List Nat) (nit : SItem) : List SItem :=
  tbl.map (fun x => if x.key = key then nit else x)

/-- item_update from item.c: overwrite the value in place (the caller
guarantees, per the source's ASSERT, that the new size stays in the same
class) and bump the CAS token. -/
def item_update (st : Store) (it : SItem) (v : List Nat) : ItemRstatus × Store :=
  let nit := { it with val := v, cas := st.cas_counter + 1 }
  (.ITEM_OK,
    { st with tbl := tbl_replace st.tbl it.key nit,
              cas_counter := st.cas_counter + 1 })

/-- item_annex from item.c: compute the class fitting klen and the
combined value; EOVERSIZED when none fits.  Append with a matching class
and a left-aligned item copies the delta in place after the old value;
prepend with a matching class and a right-aligned item copies it in place
before the old value; both bump CAS and touch nothing else.  Otherwise a
new item is allocated in the fitting class, the key is copied, expire_at
and dataflag are inherited, create_at and CAS are stamped fresh, the
value is old-then-new (left-aligned) for append or new-then-old at the
right end (is_raligned set) for prepend, and the old item is unlinked
before the new one is linked. -/
def item_annex (cfg : SlabCfg) (st : Store) (oit : SItem) (v : List Nat)
    (append : Bool) (now : Nat) : ItemRstatus × Store :=
  match item_slabid cfg oit.key.length (oit.val.length + v.length) with
  | none => (.ITEM_EOVERSIZED, st)
  | some id =>
    if append then
      if id = oit.id ∧ oit.is_raligned = false then
        let nit := { oit with val := oit.val ++ v, cas := st.cas_counter + 1 }
        (.ITEM_OK,
          { st with tbl := tbl_replace st.tbl oit.key nit,
                    cas_counter := st.cas_counter + 1 })
      else
        let nit : SItem :=
          { key := oit.key, val := oit.val ++ v, id := id, is_raligned := false,
            dataflag := oit.dataflag, create_at := now,
            expire_at := oit.expire_at, cas := st.cas_counter + 1 }
        (.ITEM_OK,
          item_link nit (item_unlink oit { st with cas_counter := st.cas_counter + 1 }))
    else
      if id = oit.id ∧ oit.is_raligned = true then
        let nit := { oit with val := v ++ oit.val, cas := st.cas_counter + 1 }
        (.ITEM_OK,
          { st with tbl := tbl_replace st.tbl oit.key nit,
                    cas_counter := st.cas_counter + 1 })
      else
        let nit : SItem :=
          { key := oit.key, val := v ++ oit.val, id := id, is_raligned := true,
            dataflag := oit.dataflag, create_at := now,
            expire_at := oit.expire_at, cas := st.cas_counter + 1 }
        (.ITEM_OK,
          item_link nit (item_unlink oit { st with cas_counter := st.cas_counter + 1 }))

/-- item_delete from item.c: item_get (which already unlinks an expired
hit), then unlink and report true on a live hit, false otherwise. -/
def item_delete (st : Store) (key : List Nat) (now : Nat) : Bool × Store :=
  match item_get st key now with
  | (some it, st') => (true, item_unlink it st')
  | (none, st') => (false, st')

/-- item_flush from item.c: refresh the clock and record flush_at; no
eager sweep. -/
def item_flush (st : Store) (now : Nat) : Store := { st with flush_at := now }

/-- An empty store. -/
def st0 : Store := ⟨[], [], 0, 0⟩

/-- A two-class slab configuration used by concrete scenarios. -/
def cfg6 : SlabCfg := ⟨[16, 32], 8⟩

/-- The item the S6 scenario inserts. -/
def oit6 : SItem := ⟨[107], [118, 49], 0, false, 0, 1, 0, 1⟩

/-- Every CAS token assigned so far (to linked items and to freed slots)
is bounded by the process-wide counter. -/
def cas_inv (st : Store) : Prop :=
  (∀ x ∈ st.tbl, x.cas ≤ st.cas_counter) ∧
  (∀ x ∈ st.freeq, x.cas ≤ st.cas_counter)

/-- Sizing configuration of the dbuf module: buf_init_size, the max_size
computed by dbuf_setup as `buf_init_size << max_power`, and BUF_HDR_SIZE
(sizeof(struct buf); cc_buf.h is not under src/, and nothing below
depends on its concrete value).  A buffer's state is its allocation size
in bytes (`buf_size` in the C source; the spec's capacity `C`). -/
structure DbufCfg where
  init_size : Nat
  max_size : Nat
  hdr_size : Nat
deriving DecidableEq

/-- dbuf_double from cc_dbuf.c: `nsize = buf_size * 2` in uint32
arithmetic; fail (CC_ERROR, modelled none) when nsize exceeds max_size,
else reallocate to nsize. -/
def dbuf_double (cfg : DbufCfg) (size : Nat) : Option Nat :=
  let nsize := size * 2 % U32
  if cfg.max_size < nsize then none else some nsize

/-- Doubling loop of dbuf_fit: `while (nsize < target) nsize *= 2`,
starting from buf_init_size.  Structural fuel: with a positive start the
size grows by at least one per step, so any fuel of at least `target`
makes the zero-fuel branch unreachable (with init_size 0 the C loop would
never terminate; sane configurations below assume it positive). -/
def fit_loop (target : Nat) : Nat → Nat → Nat
  | 0, nsize => nsize
  | fuel + 1, nsize => if nsize < target then fit_loop target fuel (nsize * 2) else nsize

/-- dbuf_fit from cc_dbuf.c: fail (CC_ERROR, modelled none) when
`cap + BUF_HDR_SIZE` exceeds max_size, else reallocate to the doubling
loop's result.  BUF_HDR_SIZE is an offsetof size_t constant, so the sum
is computed in 64-bit arithmetic and cannot wrap for a uint32 cap. -/
def dbuf_fit (cfg : DbufCfg) (cap : Nat) : Option Nat :=
  let target := cap + cfg.hdr_size
  if cfg.max_size < target then none
  else some (fit_loop target (target + 1) cfg.init_size)

/-- dbuf_shrink from cc_dbuf.c: reallocate to buf_init_size. -/
def dbuf_shrink (cfg : DbufCfg) : Nat := cfg.init_size

/-- The dbuf operations a buffer can undergo after creation. -/
inductive DbufOp where
  | double
  | fit (cap : Nat)
  | shrink
deriving DecidableEq

/-- One operation applied to a buffer's size; a refused resize (CC_ERROR,
or the unmodelled CC_ENOMEM of a failed realloc) leaves the size
unchanged. -/
def dbuf_apply (cfg : DbufCfg) (size : Nat) : DbufOp → Nat
  | .double =>
    match dbuf_double cfg size with
    | some n => n
    | none => size
  | .fit cap =>
    match dbuf_fit cfg cap with
    | some n => n
    | none => size
  | .shrink => dbuf_shrink cfg

/-- A buffer's size after a sequence of dbuf operations. -/
def dbuf_run (cfg : DbufCfg) (size : Nat) (ops : List DbufOp) : Nat :=
  ops.foldl (dbuf_apply cfg) size

/-- The C7 invariant: bounded by max_size, and a power-of-two multiple of
init_size. -/
def dbuf_good (cfg : DbufCfg) (size : Nat) : Prop :=
  size ≤ cfg.max_size ∧ ∃ k, size = cfg.init_size * 2 ^ k

/-- Reads beyond the modelled memory are 0, which is not a digit. -/
theorem isdigit_lt_length (b : Buf) (p : Nat) (h : isdigit (readByte b p) = true) :
    p < b.mem.length := by
  by_contra hp
  have h0 : readByte b p = 0 := by
    unfold readByte
    exact List.getD_eq_default _ _ (Nat.le_of_not_lt hp)
  rw [h0] at h
  simp [isdigit] at h

/-- check_req_type only rewrites the request's type field: the val flag
survives. -/
theorem check_req_type_val (r : Req) (b : Buf) :
    ((check_req_type r b).2.1).val = r.val := by
  unfold check_req_type
  rcases h : parse_bulk b with ⟨st, t, b'⟩
  cases st
  case OK =>
    dsimp only
    repeat' split
    all_goals rfl
  all_goals rfl

/-- push_key only rewrites the request's keys field. -/
theorem push_key_val (r : Req) (t : Bstr) : ((push_key r t).2).val = r.val := by
  unfold push_key
  split <;> rfl

/-- The retrieve loop never touches the request's val flag. -/
theorem subrequest_retrieve_loop_val (fuel : Nat) :
    ∀ (r : Req) (b : Buf), ((subrequest_retrieve_loop r b fuel).2.1).val = r.val := by
  induction fuel with
  | zero => intro r b; rfl
  | succ n ih =>
    intro r b
    unfold subrequest_retrieve_loop
    rcases h : parse_bulk b with ⟨st, t, b'⟩
    cases st
    case OK =>
      by_cases hk : MAX_BATCH_SIZE ≤ r.keys.length
      · simp [hk]
      · simp [hk, ih]
    case EEMPTY => by_cases hk : r.keys.length = 0 <;> simp [hk]
    all_goals rfl

/-- subrequest_retrieve never touches the request's val flag. -/
theorem subrequest_retrieve_val (r : Req) (b : Buf) :
    ((subrequest_retrieve r b).2.1).val = r.val :=
  subrequest_retrieve_loop_val _ r b

/-- subrequest_delete never touches the request's val flag. -/
theorem subrequest_delete_val (r : Req) (b : Buf) :
    ((subrequest_delete r b).2.1).val = r.val := by
  unfold subrequest_delete
  rcases h : parse_bulk b with ⟨st, t, b'⟩
  cases st
  case OK => simp [push_key_val]
  all_goals rfl

/-- subrequest_arithmetic never touches the request's val flag. -/
theorem subrequest_arithmetic_val (r : Req) (b : Buf) :
    ((subrequest_arithmetic r b).2.1).val = r.val := by
  unfold subrequest_arithmetic
  rcases h : parse_bulk b with ⟨st, t, b'⟩
  cases st
  case OK =>
    rcases hp : push_key r t with ⟨st1, r1⟩
    have hval : r1.val = r.val := by
      have := push_key_val r t
      rw [hp] at this
      exact this
    cases st1
    case OK =>
      rcases hn : parse_bulk_numeric b' U64MAX with ⟨st2, d, b2⟩
      cases st2 <;> simp [hp, hn, hval]
    all_goals simp [hp, hval]
  all_goals rfl

/-- check_req_type leaves the parser phase alone. -/
theorem check_req_type_pstate (r : Req) (b : Buf) :
    ((check_req_type r b).2.1).pstate = r.pstate := by
  unfold check_req_type
  rcases h : parse_bulk b with ⟨st, t, b'⟩
  cases st
  case OK =>
    dsimp only
    repeat' split
    all_goals rfl
  all_goals rfl

/-- push_key leaves the parser phase alone. -/
theorem push_key_pstate (r : Req) (t : Bstr) : ((push_key r t).2).pstate = r.pstate := by
  unfold push_key
  split <;> rfl

/-- The retrieve loop leaves the parser phase alone. -/
theorem subrequest_retrieve_loop_pstate (fuel : Nat) :
    ∀ (r : Req) (b : Buf), ((subrequest_retrieve_loop r b fuel).2.1).pstate = r.pstate := by
  induction fuel with
  | zero => intro r b; rfl
  | succ n ih =>
    intro r b
    unfold subrequest_retrieve_loop
    rcases h : parse_bulk b with ⟨st, t, b'⟩
    cases st
    case OK =>
      by_cases hk : MAX_BATCH_SIZE ≤ r.keys.length
      · simp [hk]
      · simp [hk, ih]
    case EEMPTY => by_cases hk : r.keys.length = 0 <;> simp [hk]
    all_goals rfl

/-- subrequest_retrieve leaves the parser phase alone. -/
theorem subrequest_retrieve_pstate (r : Req) (b : Buf) :
    ((subrequest_retrieve r b).2.1).pstate = r.pstate :=
  subrequest_retrieve_loop_pstate _ r b

/-- subrequest_delete leaves the parser phase alone. -/
theorem subrequest_delete_pstate (r : Req) (b : Buf) :
    ((subrequest_delete r b).2.1).pstate = r.pstate := by
  unfold subrequest_delete
  rcases h : parse_bulk b with ⟨st, t, b'⟩
  cases st
  case OK => simp [push_key_pstate]
  all_goals rfl

/-- subrequest_arithmetic leaves the parser phase alone. -/
theorem subrequest_arithmetic_pstate (r : Req) (b : Buf) :
    ((subrequest_arithmetic r b).2.1).pstate = r.pstate := by
  unfold subrequest_arithmetic
  rcases h : parse_bulk b with ⟨st, t, b'⟩
  cases st
  case OK =>
    rcases hp : push_key r t with ⟨st1, r1⟩
    have hps : r1.pstate = r.pstate := by
      have := push_key_pstate r t
      rw [hp] at this
      exact this
    cases st1
    case OK =>
      rcases hn : parse_bulk_numeric b' U64MAX with ⟨st2, d, b2⟩
      cases st2 <;> simp [hp, hn, hps]
    all_goals simp [hp, hps]
  all_goals rfl

/-- Key count after the retrieve loop never exceeds the larger of the
incoming count and MAX_BATCH_SIZE. -/
theorem subrequest_retrieve_loop_len (fuel : Nat) :
    ∀ (r : Req) (b : Buf),
      ((subrequest_retrieve_loop r b fuel).2.1).keys.length ≤
        max r.keys.length MAX_BATCH_SIZE := by
  induction fuel with
  | zero => intro r b; exact Nat.le_max_left _ _
  | succ n ih =>
    intro r b
    unfold subrequest_retrieve_loop
    rcases h : parse_bulk b with ⟨st, t, b'⟩
    cases st
    case OK =>
      by_cases hk : MAX_BATCH_SIZE ≤ r.keys.length
      · simp [hk]
      · simp only [hk, if_false]
        have hrec := ih { r with keys := r.keys ++ [t] } b'
        simp only [List.length_append, List.length_cons, List.length_nil] at hrec
        omega
    case EEMPTY =>
      by_cases hk : r.keys.length = 0 <;> simp [hk]
    all_goals exact Nat.le_max_left _ _

/-- C1: the repository's own protocol tests (check_redis.c) assert that
parse_req accepts exactly the frames compose_req emits, for every command,
with matching type, keys, value and delta.  The code breaks this: for any
request with keys, compose_req emits a leading `*N` array header that
parse_req's verb reader (parse_bulk inside check_req_type) rejects with
EINVALID on its first byte.  Witnessed on the single-key GET of the tests:
the composed frame equals the S2 bytes, and parsing them fails with
EINVALID, never reaching the PARSED state. -/
theorem c1_compose_parse_roundtrip_fails :
    compose_req ⟨.GET, [fooBytes], [], 0⟩ = s2Bytes ∧
    (parse_req req_reset (bufOf s2Bytes)).1 = .EINVALID ∧
    Rstatus.EINVALID ≠ Rstatus.OK ∧
    ((parse_req req_reset (bufOf s2Bytes)).2.1).rstate ≠ .REQ_PARSED := by decide

/-- C4: parsing the S2 scenario bytes is asserted by the spec and the
repository's test_get to return OK with type GET, one key foo and the
cursor at the end; the code instead rejects the leading `*` byte with
EINVALID, recognizing nothing and leaving the cursor at 0. -/
theorem c4_s2_parse_rejected :
    (parse_req req_reset (bufOf s2Bytes)).1 = .EINVALID ∧
    ((parse_req req_reset (bufOf s2Bytes)).2.1).type = .UNKNOWN ∧
    ((parse_req req_reset (bufOf s2Bytes)).2.1).keys = [] ∧
    ((parse_req req_reset (bufOf s2Bytes)).2.2).rpos = 0 := by decide

/-- C5: the overflow pre-check `*num > max/10` in check_uint and
parse_bulk_numeric misses values whose final digit pushes them past max
(the source's own TODO admits it).  The 20-digit input 2^64 — which
exceeds UINT64_MAX — is accepted: parse_bulk_numeric returns OK with the
wrapped accumulator 0, and a whole incrby request carrying that delta
parses OK with delta 0 instead of the claimed Invalid. -/
theorem c5_overflow_accepted_wrapped :
    (parse_bulk_numeric (bufOf overflowBulk) U64MAX).1 = .OK ∧
    (parse_bulk_numeric (bufOf overflowBulk) U64MAX).2.1 = 0 ∧
    U64MAX < 18446744073709551616 ∧
    (parse_req req_reset (bufOf incrOverflowFrame)).1 = .OK ∧
    ((parse_req req_reset (bufOf incrOverflowFrame)).2.1).delta = 0 := by decide

/-- C2 counterexample: the first 7 bytes of the valid 10-byte quit frame
form a strict prefix on which parse_req returns EUNFIN as claimed, but the
read cursor moves from 0 to 4: check_req_type's parse_bulk consumes the
`$4` length header before reporting the missing payload, and
parse_req_hdr returns that status before its cursor-restoring tail. -/
theorem c2_prefix_moves_cursor :
    (parse_req req_reset (bufOf quitFrame)).1 = .OK ∧
    ((parse_req req_reset (bufOf quitFrame)).2.2).rpos = 10 ∧
    (bufOf quitFrame).wpos = 10 ∧
    (parse_req req_reset (bufOf (quitFrame.take 7))).1 = .EUNFIN ∧
    ((parse_req req_reset (bufOf (quitFrame.take 7))).2.2).rpos = 4 ∧
    (bufOf (quitFrame.take 7)).rpos = 0 := by decide

/-- Pulled-out core of the C2 argument: if the HDR phase of a fresh
parse_req reduces to the cursor-restoring tail applied to some subrequest
outcome that preserves a false val flag and the HDR phase marker, then any
non-OK parse leaves the cursor where it started. -/
theorem parse_req_fresh_restore (b : Buf) (sub : Rstatus × Req × Buf)
    (hv1 : (sub.2.1).val = false) (hp1 : (sub.2.1).pstate = .REQ_HDR)
    (hhdr : parse_req_hdr req_reset b = hdr_finish b.rpos sub)
    (hst : (parse_req req_reset b).1 ≠ .OK) :
    ((parse_req req_reset b).2.2).rpos = b.rpos := by
  rcases sub with ⟨st1, r1, b1⟩
  have hpr : req_reset.pstate = Pstate.REQ_HDR := rfl
  have hv1a : r1.val = false := hv1
  have hp1a : r1.pstate = .REQ_HDR := hp1
  cases st1 <;>
    simp [parse_req, parse_req_core, hpr, hhdr, hdr_finish, hv1a, hp1a] at hst ⊢

/-- C2 amended: the read cursor is restored on a non-OK status whenever
the failure arises in the per-command argument parsing --- that is, once the
verb has been recognized as GET, MGET, DELETE, INCR or DECR on a fresh
request; a failure while reading the verb bulk itself (or the
unimplemented SET branch) can instead leave the cursor advanced. -/
theorem c2_cursor_restored_after_verb (b : Buf) (r0 : Req) (b0 : Buf)
    (hct : check_req_type req_reset b = (.OK, r0, b0))
    (hty : r0.type = .GET ∨ r0.type = .MGET ∨ r0.type = .DELETE ∨
      r0.type = .INCR ∨ r0.type = .DECR)
    (hst : (parse_req req_reset b).1 ≠ .OK) :
    ((parse_req req_reset b).2.2).rpos = b.rpos := by
  have hval : r0.val = false := by
    have h := check_req_type_val req_reset b
    rw [hct] at h
    exact h
  have hps : r0.pstate = .REQ_HDR := by
    have h := check_req_type_pstate req_reset b
    rw [hct] at h
    exact h
  rcases hty with h5 | h5 | h5 | h5 | h5
  · refine parse_req_fresh_restore b (subrequest_retrieve r0 b0) ?_ ?_ ?_ hst
    · rw [subrequest_retrieve_val, hval]
    · rw [subrequest_retrieve_pstate, hps]
    · simp only [parse_req_hdr, hct, h5]
  · refine parse_req_fresh_restore b (subrequest_retrieve r0 b0) ?_ ?_ ?_ hst
    · rw [subrequest_retrieve_val, hval]
    · rw [subrequest_retrieve_pstate, hps]
    · simp only [parse_req_hdr, hct, h5]
  · refine parse_req_fresh_restore b (subrequest_delete r0 b0) ?_ ?_ ?_ hst
    · rw [subrequest_delete_val, hval]
    · rw [subrequest_delete_pstate, hps]
    · simp only [parse_req_hdr, hct, h5]
  · refine parse_req_fresh_restore b (subrequest_arithmetic r0 b0) ?_ ?_ ?_ hst
    · rw [subrequest_arithmetic_val, hval]
    · rw [subrequest_arithmetic_pstate, hps]
    · simp only [parse_req_hdr, hct, h5]
  · refine parse_req_fresh_restore b (subrequest_arithmetic r0 b0) ?_ ?_ ?_ hst
    · rw [subrequest_arithmetic_val, hval]
    · rw [subrequest_arithmetic_pstate, hps]
    · simp only [parse_req_hdr, hct, h5]

/-- C2 witness: on the GET-with-no-key frame the verb is recognized, the
parse fails (with EOTHER), and the cursor is back at the start. -/
theorem c2_cursor_restored_after_verb_witness :
    check_req_type req_reset (bufOf getEmptyFrame) =
      (.OK, { req_reset with type := .GET }, ⟨getEmptyFrame, 9, 12⟩) ∧
    (parse_req req_reset (bufOf getEmptyFrame)).1 ≠ .OK ∧
    ((parse_req req_reset (bufOf getEmptyFrame)).2.2).rpos =
      (bufOf getEmptyFrame).rpos :=
  ⟨by decide, by decide,
    c2_cursor_restored_after_verb (bufOf getEmptyFrame)
      { req_reset with type := .GET } ⟨getEmptyFrame, 9, 12⟩
      (by decide) (Or.inl rfl) (by decide)⟩

/-- C8 counterexample: with no key before the Empty token the parse of
the GET-with-no-key frame ends in PARSE_EOTHER, which is a distinct
status from the PARSE_EINVALID the claim names. -/
theorem c8_no_key_status_eother :
    (parse_req req_reset (bufOf getEmptyFrame)).1 = .EOTHER ∧
    Rstatus.EOTHER ≠ Rstatus.EINVALID := by decide

/-- C8 amended: the retrieve loop reads one key bulk at a time; an Empty
token ends it with OK when at least one key was read and with EOTHER (not
EINVALID) when none was; the keys sequence never exceeds MAX_BATCH_SIZE,
and a frame offering a further key to a full batch is rejected with
EOTHER rather than truncated. -/
theorem c8_retrieve_loop_props (r : Req) (b : Buf) (t : Bstr) (b' : Buf)
    (hlen : r.keys.length ≤ MAX_BATCH_SIZE) :
    ((subrequest_retrieve r b).2.1).keys.length ≤ MAX_BATCH_SIZE ∧
    (parse_bulk b = (.EEMPTY, t, b') → r.keys.length = 0 →
      subrequest_retrieve r b = (.EOTHER, r, b')) ∧
    (parse_bulk b = (.EEMPTY, t, b') → r.keys.length ≠ 0 →
      subrequest_retrieve r b = (.OK, r, b')) ∧
    (parse_bulk b = (.OK, t, b') → r.keys.length = MAX_BATCH_SIZE →
      subrequest_retrieve r b = (.EOTHER, r, b')) := by
  obtain ⟨f, hf⟩ : ∃ f, MAX_BATCH_SIZE + 1 - r.keys.length = f + 1 :=
    ⟨MAX_BATCH_SIZE - r.keys.length, by omega⟩
  refine ⟨?_, ?_, ?_, ?_⟩
  · have h := subrequest_retrieve_loop_len (MAX_BATCH_SIZE + 1 - r.keys.length) r b
    unfold subrequest_retrieve
    calc ((subrequest_retrieve_loop r b (MAX_BATCH_SIZE + 1 - r.keys.length)).2.1).keys.length
        ≤ max r.keys.length MAX_BATCH_SIZE := h
      _ = MAX_BATCH_SIZE := max_eq_right hlen
  · intro hemp h0
    unfold subrequest_retrieve
    rw [hf]
    simp [subrequest_retrieve_loop, hemp, h0]
  · intro hemp h0
    unfold subrequest_retrieve
    rw [hf]
    simp [subrequest_retrieve_loop, hemp, h0]
  · intro hok hmax
    unfold subrequest_retrieve
    rw [hf]
    simp [subrequest_retrieve_loop, hok, hmax]

/-- C8 witness: a fresh request facing an immediate Empty token yields
EOTHER with the cursor past the consumed `$`. -/
theorem c8_retrieve_loop_props_witness :
    req_reset.keys.length ≤ MAX_BATCH_SIZE ∧
    parse_bulk (bufOf [36, 13, 10]) = (.EEMPTY, bstr0, ⟨[36, 13, 10], 1, 3⟩) ∧
    subrequest_retrieve req_reset (bufOf [36, 13, 10]) =
      (.EOTHER, req_reset, ⟨[36, 13, 10], 1, 3⟩) :=
  ⟨by decide, by decide,
    (c8_retrieve_loop_props req_reset (bufOf [36, 13, 10]) bstr0
      ⟨[36, 13, 10], 1, 3⟩ (by decide)).2.1 (by decide) (by decide)⟩

/-- Replacing the entry that holds `key` is what a same-key lookup then
sees, provided the replacement carries that key. -/
theorem find_tbl_replace (key : List Nat) (nit : SItem) (hkey : nit.key = key) :
    ∀ (tbl : List SItem) (oit : SItem),
      tbl.find? (fun x => x.key = key) = some oit →
      (tbl_replace tbl key nit).find? (fun x => x.key = key) = some nit := by
  intro tbl
  induction tbl with
  | nil => intro oit h; simp [List.find?] at h
  | cons a l ih =>
    intro oit h
    by_cases ha : a.key = key
    · simp [tbl_replace, List.find?, ha, hkey]
    · rw [List.find?_cons_of_neg _ (by simp [ha])] at h
      show ((if a.key = key then nit else a) :: tbl_replace l key nit).find?
        (fun x => x.key = key) = some nit
      rw [if_neg ha, List.find?_cons_of_neg _ (by simp [ha])]
      exact ih oit h

/-- Entries surviving a key's removal never match that key again. -/
theorem filter_match_filter_not (k : List Nat) :
    ∀ tbl : List SItem,
      ((tbl.filter (fun x => ¬ x.key = k)).filter (fun x => x.key = k)) = [] := by
  intro tbl
  induction tbl with
  | nil => rfl
  | cons a l ih => by_cases ha : a.key = k <;> simp [ha, ih]

/-- C3 counterexample: flushing at time 5 and inserting at the same
second 5 leaves the fresh item already expired (create_at ≤ flush_at), so
the very next get returns none although the claim promises visibility for
every insert performed after the flush. -/
theorem c3_same_second_insert_invisible :
    (item_insert cfg6 (item_flush st0 5) [107] [118] 0 0 5).1 = .ITEM_OK ∧
    (item_get (item_insert cfg6 (item_flush st0 5) [107] [118] 0 0 5).2
      [107] 5).1 = none := by decide

/-- C3 amended: after item_flush at time tf, any key inserted at or
before tf is reported absent by every subsequent item_get (its create_at
is at most flush_at); an item_insert performed after the flush is visible
to item_get provided its create_at is strictly greater than flush_at —
an insert within the very second of the flush is lazily expired too. -/
theorem c3_flush_lazy_expiry (cfg : SlabCfg) (st st1 : Store) (key v : List Nat)
    (df exp tins tf now : Nat)
    (hins : item_insert cfg st key v df exp tins = (.ITEM_OK, st1))
    (hle : tins ≤ tf) :
    (item_get (item_flush st1 tf) key now).1 = none ∧
    ∀ key2 v2 df2 tpost now2 st2,
      item_insert cfg (item_flush st1 tf) key2 v2 df2 0 tpost = (.ITEM_OK, st2) →
      tf < tpost →
      ∃ nit, (item_get st2 key2 now2).1 = some nit ∧ nit.val = v2 ∧
        nit.create_at = tpost := by
  rcases hid : item_slabid cfg key.length v.length with _ | id
  · unfold item_insert at hins
    rw [hid] at hins
    cases hins
  · unfold item_insert at hins
    rw [hid] at hins
    simp only [Prod.mk.injEq, true_and] at hins
    subst hins
    constructor
    · simp [item_get, hashtable_get, item_link, hashtable_put, item_flush,
        List.find?, item_expired, hle]
    · intro key2 v2 df2 tpost now2 st2 hins2 hlt
      rcases hid2 : item_slabid cfg key2.length v2.length with _ | id2
      · unfold item_insert at hins2
        rw [hid2] at hins2
        cases hins2
      · unfold item_insert at hins2
        rw [hid2] at hins2
        simp only [Prod.mk.injEq, true_and] at hins2
        subst hins2
        have hnle : ¬ tpost ≤ tf := by omega
        refine ⟨SItem.mk key2 v2 id2 false df2 tpost 0 (st.cas_counter + 1 + 1),
          ?_, rfl, rfl⟩
        simp [item_get, hashtable_get, item_link, hashtable_put, item_flush,
          List.find?, item_expired, hnle]

/-- C3 witness: insert at time 1, flush at time 2, get gone; re-insert at
time 3, visible with the new value. -/
theorem c3_flush_lazy_expiry_witness :
    item_insert cfg6 st0 [107] [118] 0 0 1 =
      (.ITEM_OK, ⟨[⟨[107], [118], 0, false, 0, 1, 0, 1⟩], [], 0, 1⟩) ∧
    (1 : Nat) ≤ 2 ∧
    (item_get (item_flush ⟨[⟨[107], [118], 0, false, 0, 1, 0, 1⟩], [], 0, 1⟩ 2)
      [107] 3).1 = none :=
  ⟨by decide, by decide,
    (c3_flush_lazy_expiry cfg6 st0 _ [107] [118] 0 0 1 2 3
      (by decide) (by decide)).1⟩

/-- C10: deleting a key whose table entry is expired returns false — the
same answer as for an absent key — while still unlinking the entry and
returning its slot to the free queue, so the false result does not mean
the store is unchanged. -/
theorem c10_delete_expired (st : Store) (key : List Nat) (now : Nat) (it : SItem)
    (hget : hashtable_get st key = some it)
    (hexp : item_expired st now it = true) :
    item_delete st key now =
      (false, { st with tbl := st.tbl.filter (fun x => ¬ x.key = it.key),
                        freeq := it :: st.freeq }) ∧
    ((item_delete st key now).2).freeq ≠ st.freeq ∧
    (∀ k2, hashtable_get st k2 = none → item_delete st k2 now = (false, st)) := by
  refine ⟨?_, ?_, ?_⟩
  · simp [item_delete, item_get, hget, hexp, item_unlink]
  · simp [item_delete, item_get, hget, hexp, item_unlink]
  · intro k2 hnone
    simp [item_delete, item_get, hnone]

/-- C10 witness: a store holding one item expired by a flush; delete
returns false yet moves the slot to the free queue. -/
theorem c10_delete_expired_witness :
    hashtable_get ⟨[⟨[107], [118], 0, false, 0, 1, 0, 1⟩], [], 5, 1⟩ [107] =
      some ⟨[107], [118], 0, false, 0, 1, 0, 1⟩ ∧
    item_delete ⟨[⟨[107], [118], 0, false, 0, 1, 0, 1⟩], [], 5, 1⟩ [107] 9 =
      (false, ⟨[], [⟨[107], [118], 0, false, 0, 1, 0, 1⟩], 5, 1⟩) :=
  ⟨by decide, by
    have h := (c10_delete_expired ⟨[⟨[107], [118], 0, false, 0, 1, 0, 1⟩], [], 5, 1⟩
      [107] 9 ⟨[107], [118], 0, false, 0, 1, 0, 1⟩ (by decide) (by decide)).1
    simpa using h⟩

/-- C6: item_annex takes the in-place path exactly when the combined
size keeps the item's slab class and the alignment matches the operation
(append needs a left-aligned item, prepend a right-aligned one): that
path rewrites the entry in place — concatenated value, fresh CAS,
create_at kept, free queue untouched.  Any other combination allocates in
the fitting class, copies old-then-new left-aligned for append or
new-then-old right-aligned for prepend, inherits expire_at and dataflag,
stamps fresh create_at and CAS, and unlinks the old item (its slot joins
the free queue) before linking the new.  In particular the S6 scenario:
insert k/v1, annex v2 with append, get k yields v1v2. -/
theorem c6_annex_paths (cfg : SlabCfg) (st : Store) (oit : SItem) (v : List Nat)
    (now id : Nat)
    (hid : item_slabid cfg oit.key.length (oit.val.length + v.length) = some id)
    (hget : hashtable_get st oit.key = some oit) :
    ((id = oit.id ∧ oit.is_raligned = false) →
      (item_annex cfg st oit v true now).1 = .ITEM_OK ∧
      hashtable_get (item_annex cfg st oit v true now).2 oit.key =
        some { oit with val := oit.val ++ v, cas := st.cas_counter + 1 } ∧
      ((item_annex cfg st oit v true now).2).freeq = st.freeq) ∧
    (¬ (id = oit.id ∧ oit.is_raligned = false) →
      (item_annex cfg st oit v true now).1 = .ITEM_OK ∧
      hashtable_get (item_annex cfg st oit v true now).2 oit.key =
        some ⟨oit.key, oit.val ++ v, id, false, oit.dataflag, now,
          oit.expire_at, st.cas_counter + 1⟩ ∧
      ((item_annex cfg st oit v true now).2).freeq = oit :: st.freeq) ∧
    ((id = oit.id ∧ oit.is_raligned = true) →
      (item_annex cfg st oit v false now).1 = .ITEM_OK ∧
      hashtable_get (item_annex cfg st oit v false now).2 oit.key =
        some { oit with val := v ++ oit.val, cas := st.cas_counter + 1 } ∧
      ((item_annex cfg st oit v false now).2).freeq = st.freeq) ∧
    (¬ (id = oit.id ∧ oit.is_raligned = true) →
      (item_annex cfg st oit v false now).1 = .ITEM_OK ∧
      hashtable_get (item_annex cfg st oit v false now).2 oit.key =
        some ⟨oit.key, v ++ oit.val, id, true, oit.dataflag, now,
          oit.expire_at, st.cas_counter + 1⟩ ∧
      ((item_annex cfg st oit v false now).2).freeq = oit :: st.freeq) ∧
    ((item_get (item_annex cfg6 (item_insert cfg6 st0 [107] [118, 49] 0 0 1).2
        oit6 [118, 50] true 1).2 [107] 1).1 =
      some ⟨[107], [118, 49, 118, 50], 0, false, 0, 1, 0, 2⟩) := by
  refine ⟨?_, ?_, ?_, ?_, by decide⟩
  · intro hc
    have hann : item_annex cfg st oit v true now =
        (.ITEM_OK,
          { st with
            tbl := tbl_replace st.tbl oit.key
              { oit with val := oit.val ++ v, cas := st.cas_counter + 1 },
            cas_counter := st.cas_counter + 1 }) := by
      unfold item_annex
      rw [hid]
      simp [hc.1, hc.2]
    rw [hann]
    refine ⟨rfl, ?_, rfl⟩
    unfold hashtable_get at hget ⊢
    exact find_tbl_replace oit.key
      { oit with val := oit.val ++ v, cas := st.cas_counter + 1 } rfl st.tbl oit hget
  · intro hc
    have hann : item_annex cfg st oit v true now =
        (.ITEM_OK,
          item_link ⟨oit.key, oit.val ++ v, id, false, oit.dataflag, now,
            oit.expire_at, st.cas_counter + 1⟩
            (item_unlink oit { st with cas_counter := st.cas_counter + 1 })) := by
      unfold item_annex
      rw [hid]
      simp [hc]
    rw [hann]
    refine ⟨rfl, ?_, ?_⟩
    · unfold hashtable_get item_link hashtable_put
      exact List.find?_cons_of_pos _ (by simp)
    · simp [item_link, hashtable_put, item_unlink, filter_match_filter_not]
  · intro hc
    have hann : item_annex cfg st oit v false now =
        (.ITEM_OK,
          { st with
            tbl := tbl_replace st.tbl oit.key
              { oit with val := v ++ oit.val, cas := st.cas_counter + 1 },
            cas_counter := st.cas_counter + 1 }) := by
      unfold item_annex
      rw [hid]
      simp [hc.1, hc.2]
    rw [hann]
    refine ⟨rfl, ?_, rfl⟩
    unfold hashtable_get at hget ⊢
    exact find_tbl_replace oit.key
      { oit with val := v ++ oit.val, cas := st.cas_counter + 1 } rfl st.tbl oit hget
  · intro hc
    have hann : item_annex cfg st oit v false now =
        (.ITEM_OK,
          item_link ⟨oit.key, v ++ oit.val, id, true, oit.dataflag, now,
            oit.expire_at, st.cas_counter + 1⟩
            (item_unlink oit { st with cas_counter := st.cas_counter + 1 })) := by
      unfold item_annex
      rw [hid]
      simp [hc]
    rw [hann]
    refine ⟨rfl, ?_, ?_⟩
    · unfold hashtable_get item_link hashtable_put
      exact List.find?_cons_of_pos _ (by simp)
    · simp [item_link, hashtable_put, item_unlink, filter_match_filter_not]

/-- C6 witness: the fast-append branch on the concrete S6 store. -/
theorem c6_annex_paths_witness :
    item_slabid cfg6 1 4 = some 0 ∧
    hashtable_get ⟨[oit6], [], 0, 1⟩ [107] = some oit6 ∧
    hashtable_get (item_annex cfg6 ⟨[oit6], [], 0, 1⟩ oit6 [118, 50] true 1).2
      [107] = some ⟨[107], [118, 49, 118, 50], 0, false, 0, 1, 0, 2⟩ :=
  ⟨by decide, by decide, by
    have h := ((c6_annex_paths cfg6 ⟨[oit6], [], 0, 1⟩ oit6 [118, 50] 1 0
      (by decide) (by decide)).1 (by decide)).2.1
    simpa using h⟩

/-- hashtable_put preserves the CAS bound when the new item satisfies it. -/
theorem cas_inv_put (st : Store) (it : SItem) (hinv : cas_inv st)
    (hit : it.cas ≤ st.cas_counter) : cas_inv (hashtable_put it st) := by
  obtain ⟨h1, h2⟩ := hinv
  constructor
  · intro x hx
    rcases List.mem_cons.mp hx with rfl | hx'
    · exact hit
    · exact h1 x (List.mem_of_mem_filter hx')
  · intro x hx
    rcases List.mem_append.mp hx with hx' | hx'
    · exact h1 x (List.mem_of_mem_filter hx')
    · exact h2 x hx'

/-- item_unlink preserves the CAS bound when the removed item satisfies
it. -/
theorem cas_inv_unlink (st : Store) (oit : SItem) (hinv : cas_inv st)
    (hoit : oit.cas ≤ st.cas_counter) : cas_inv (item_unlink oit st) := by
  obtain ⟨h1, h2⟩ := hinv
  constructor
  · intro x hx
    exact h1 x (List.mem_of_mem_filter hx)
  · intro x hx
    rcases List.mem_cons.mp hx with rfl | hx'
    · exact hoit
    · exact h2 x hx'

/-- Bumping the counter keeps every existing bound. -/
theorem cas_inv_bump (st : Store) (hinv : cas_inv st) :
    cas_inv { st with cas_counter := st.cas_counter + 1 } := by
  obtain ⟨h1, h2⟩ := hinv
  exact ⟨fun x hx => Nat.le_succ_of_le (h1 x hx),
    fun x hx => Nat.le_succ_of_le (h2 x hx)⟩

/-- Replacing one table entry with a freshly stamped item under a bumped
counter keeps the bound. -/
theorem cas_inv_replace (st : Store) (key : List Nat) (nit : SItem)
    (hinv : cas_inv st) (hnit : nit.cas ≤ st.cas_counter + 1) :
    cas_inv { st with tbl := tbl_replace st.tbl key nit,
                      cas_counter := st.cas_counter + 1 } := by
  obtain ⟨h1, h2⟩ := hinv
  constructor
  · intro x hx
    rcases List.mem_map.mp hx with ⟨y, hy, hxy⟩
    by_cases hk : y.key = key
    · rw [if_pos hk] at hxy
      exact hxy ▸ hnit
    · rw [if_neg hk] at hxy
      exact hxy ▸ Nat.le_succ_of_le (h1 y hy)
  · intro x hx
    exact Nat.le_succ_of_le (h2 x hx)

/-- C9: the CAS counter is process-wide and monotonically increasing —
item_insert, item_update and both paths of item_annex advance the counter
by one and stamp the touched item with the new token, which (under the
invariant that every assigned token is bounded by the counter) strictly
exceeds every token assigned before; each operation preserves that
invariant. -/
theorem c9_cas_monotonic (cfg : SlabCfg) (st : Store) (key v : List Nat)
    (df exp now : Nat) (it oit : SItem) (app : Bool) (id : Nat) :
    (∀ st1, item_insert cfg st key v df exp now = (.ITEM_OK, st1) →
      st1.cas_counter = st.cas_counter + 1 ∧
      (∃ nit, hashtable_get st1 key = some nit ∧
        nit.cas = st.cas_counter + 1 ∧
        (cas_inv st → ∀ o ∈ st.tbl, o.cas < nit.cas)) ∧
      (cas_inv st → cas_inv st1)) ∧
    ((item_update st it v).2.cas_counter = st.cas_counter + 1 ∧
      (hashtable_get st it.key = some it →
        hashtable_get (item_update st it v).2 it.key =
          some { it with val := v, cas := st.cas_counter + 1 }) ∧
      (cas_inv st → ∀ o ∈ st.tbl, o.cas < st.cas_counter + 1) ∧
      (cas_inv st → cas_inv (item_update st it v).2)) ∧
    (item_slabid cfg oit.key.length (oit.val.length + v.length) = some id →
      ((item_annex cfg st oit v app now).2).cas_counter = st.cas_counter + 1 ∧
      (hashtable_get st oit.key = some oit →
        ∃ nit, hashtable_get (item_annex cfg st oit v app now).2 oit.key =
          some nit ∧ nit.cas = st.cas_counter + 1 ∧
          (cas_inv st → ∀ o ∈ st.tbl, o.cas < nit.cas)) ∧
      (cas_inv st → oit ∈ st.tbl →
        cas_inv (item_annex cfg st oit v app now).2)) := by
  refine ⟨?_, ⟨rfl, ?_, ?_, ?_⟩, ?_⟩
  · intro st1 hins
    rcases hid : item_slabid cfg key.length v.length with _ | idk
    · unfold item_insert at hins
      rw [hid] at hins
      cases hins
    · unfold item_insert at hins
      rw [hid] at hins
      simp only [Prod.mk.injEq, true_and] at hins
      subst hins
      refine ⟨rfl, ⟨⟨key, v, idk, false, df, now, exp, st.cas_counter + 1⟩,
        ?_, rfl, ?_⟩, ?_⟩
      · unfold hashtable_get item_link hashtable_put
        exact List.find?_cons_of_pos _ (by simp)
      · intro hinv o ho
        exact Nat.lt_succ_of_le (hinv.1 o ho)
      · intro hinv
        exact cas_inv_put _ _ (cas_inv_bump st hinv) (Nat.le_refl _)
  · intro hget
    unfold hashtable_get at hget ⊢
    exact find_tbl_replace it.key
      { it with val := v, cas := st.cas_counter + 1 } rfl st.tbl it hget
  · intro hinv o ho
    exact Nat.lt_succ_of_le (hinv.1 o ho)
  · intro hinv
    exact cas_inv_replace st it.key _ hinv (Nat.le_refl _)
  · intro hidp
    cases app
    · by_cases hc : id = oit.id ∧ oit.is_raligned = true
      · have hann : item_annex cfg st oit v false now =
            (.ITEM_OK,
              { st with
                tbl := tbl_replace st.tbl oit.key
                  { oit with val := v ++ oit.val, cas := st.cas_counter + 1 },
                cas_counter := st.cas_counter + 1 }) := by
          unfold item_annex
          rw [hidp]
          simp [hc.1, hc.2]
        rw [hann]
        refine ⟨rfl, ?_,
          fun hinv _ => cas_inv_replace st oit.key _ hinv (Nat.le_refl _)⟩
        intro hget
        refine ⟨SItem.mk oit.key (v ++ oit.val) oit.id oit.is_raligned
          oit.dataflag oit.create_at oit.expire_at (st.cas_counter + 1),
          ?_, rfl, fun hinv o ho => Nat.lt_succ_of_le (hinv.1 o ho)⟩
        unfold hashtable_get at hget ⊢
        exact find_tbl_replace oit.key
          { oit with val := v ++ oit.val, cas := st.cas_counter + 1 }
          rfl st.tbl oit hget
      · have hann : item_annex cfg st oit v false now =
            (.ITEM_OK,
              item_link ⟨oit.key, v ++ oit.val, id, true, oit.dataflag, now,
                  oit.expire_at, st.cas_counter + 1⟩
                (item_unlink oit { st with cas_counter := st.cas_counter + 1 })) := by
          unfold item_annex
          rw [hidp]
          simp [hc]
        rw [hann]
        refine ⟨rfl, ?_, fun hinv hmem => cas_inv_put _ _
          (cas_inv_unlink _ oit (cas_inv_bump st hinv)
            (Nat.le_succ_of_le (hinv.1 oit hmem)))
          (Nat.le_refl _)⟩
        intro _
        refine ⟨⟨oit.key, v ++ oit.val, id, true, oit.dataflag, now,
          oit.expire_at, st.cas_counter + 1⟩, ?_, rfl,
          fun hinv o ho => Nat.lt_succ_of_le (hinv.1 o ho)⟩
        unfold hashtable_get item_link hashtable_put
        exact List.find?_cons_of_pos _ (by simp)
    · by_cases hc : id = oit.id ∧ oit.is_raligned = false
      · have hann : item_annex cfg st oit v true now =
            (.ITEM_OK,
              { st with
                tbl := tbl_replace st.tbl oit.key
                  { oit with val := oit.val ++ v, cas := st.cas_counter + 1 },
                cas_counter := st.cas_counter + 1 }) := by
          unfold item_annex
          rw [hidp]
          simp [hc.1, hc.2]
        rw [hann]
        refine ⟨rfl, ?_,
          fun hinv _ => cas_inv_replace st oit.key _ hinv (Nat.le_refl _)⟩
        intro hget
        refine ⟨SItem.mk oit.key (oit.val ++ v) oit.id oit.is_raligned
          oit.dataflag oit.create_at oit.expire_at (st.cas_counter + 1),
          ?_, rfl, fun hinv o ho => Nat.lt_succ_of_le (hinv.1 o ho)⟩
        unfold hashtable_get at hget ⊢
        exact find_tbl_replace oit.key
          { oit with val := oit.val ++ v, cas := st.cas_counter + 1 }
          rfl st.tbl oit hget
      · have hann : item_annex cfg st oit v true now =
            (.ITEM_OK,
              item_link ⟨oit.key, oit.val ++ v, id, false, oit.dataflag, now,
                  oit.expire_at, st.cas_counter + 1⟩
                (item_unlink oit { st with cas_counter := st.cas_counter + 1 })) := by
          unfold item_annex
          rw [hidp]
          simp [hc]
        rw [hann]
        refine ⟨rfl, ?_, fun hinv hmem => cas_inv_put _ _
          (cas_inv_unlink _ oit (cas_inv_bump st hinv)
            (Nat.le_succ_of_le (hinv.1 oit hmem)))
          (Nat.le_refl _)⟩
        intro _
        refine ⟨⟨oit.key, oit.val ++ v, id, false, oit.dataflag, now,
          oit.expire_at, st.cas_counter + 1⟩, ?_, rfl,
          fun hinv o ho => Nat.lt_succ_of_le (hinv.1 o ho)⟩
        unfold hashtable_get item_link hashtable_put
        exact List.find?_cons_of_pos _ (by simp)

/-- C9 witness: inserting into a store whose counter is 7 stamps token 8
and leaves the counter at 8; appending to the S6 item advances the
counter from 1 to 2. -/
theorem c9_cas_monotonic_witness :
    item_insert cfg6 ⟨[], [], 0, 7⟩ [107] [118] 0 0 1 =
      (.ITEM_OK, ⟨[⟨[107], [118], 0, false, 0, 1, 0, 8⟩], [], 0, 8⟩) ∧
    (⟨[⟨[107], [118], 0, false, 0, 1, 0, 8⟩], [], 0, 8⟩ : Store).cas_counter =
      (⟨[], [], 0, 7⟩ : Store).cas_counter + 1 ∧
    ((item_annex cfg6 ⟨[oit6], [], 0, 1⟩ oit6 [118, 50] true 0).2).cas_counter =
      (⟨[oit6], [], 0, 1⟩ : Store).cas_counter + 1 :=
  ⟨by decide,
    ((c9_cas_monotonic cfg6 ⟨[], [], 0, 7⟩ [107] [118] 0 0 1
      oit6 oit6 true 0).1 ⟨[⟨[107], [118], 0, false, 0, 1, 0, 8⟩], [], 0, 8⟩
      (by decide)).1,
    ((c9_cas_monotonic cfg6 ⟨[oit6], [], 0, 1⟩ [107] [118, 50] 0 0 0
      oit6 oit6 true 0).2.2 (by decide)).1⟩

/-- The fit loop returns the least power-of-two multiple of its starting
size reaching the target, given a positive start and enough fuel. -/
theorem fit_loop_spec (target : Nat) :
    ∀ fuel nsize, 0 < nsize → target ≤ fuel + nsize →
      ∃ i, fit_loop target fuel nsize = nsize * 2 ^ i ∧
        target ≤ nsize * 2 ^ i ∧
        (∀ j, target ≤ nsize * 2 ^ j → i ≤ j) := by
  intro fuel
  induction fuel with
  | zero =>
    intro nsize h hf
    exact ⟨0, by simp [fit_loop], by simpa using hf, fun j _ => Nat.zero_le j⟩
  | succ f ih =>
    intro nsize h hf
    by_cases hlt : nsize < target
    · obtain ⟨i, hi, hge, hmin⟩ := ih (nsize * 2) (by omega) (by omega)
      refine ⟨i + 1, ?_, ?_, ?_⟩
      · rw [fit_loop, if_pos hlt, hi]
        ring
      · calc target ≤ nsize * 2 * 2 ^ i := hge
          _ = nsize * 2 ^ (i + 1) := by ring
      · intro j hj
        cases j with
        | zero => simp at hj; omega
        | succ j' =>
          have : target ≤ nsize * 2 * 2 ^ j' := by
            calc target ≤ nsize * 2 ^ (j' + 1) := hj
              _ = nsize * 2 * 2 ^ j' := by ring
          exact Nat.succ_le_succ (hmin j' this)
    · exact ⟨0, by rw [fit_loop, if_neg hlt]; simp, by simpa using Nat.le_of_not_lt hlt,
        fun j _ => Nat.zero_le j⟩

/-- C7: under a sane configuration (positive init_size, max_size a
power-of-two multiple of it, and 2·max_size below 2^32 so the uint32
assignment in dbuf_double cannot wrap), dbuf_double fails exactly when
doubling would exceed max_size and otherwise returns exactly twice the
size; every sequence of double, fit and shrink operations keeps the size
at most max_size and a power-of-two multiple of init_size; and dbuf_fit
returns the smallest such multiple of at least cap + header_size when
that fits under max_size, failing otherwise. -/
theorem c7_dbuf_bounded_quantized (cfg : DbufCfg) (p : Nat)
    (hinit : 0 < cfg.init_size)
    (hmax : cfg.max_size = cfg.init_size * 2 ^ p)
    (hnowrap : 2 * cfg.max_size < U32) :
    (∀ size, dbuf_good cfg size →
      (2 * size ≤ cfg.max_size → dbuf_double cfg size = some (2 * size)) ∧
      (cfg.max_size < 2 * size → dbuf_double cfg size = none)) ∧
    (∀ ops size, dbuf_good cfg size → dbuf_good cfg (dbuf_run cfg size ops)) ∧
    (∀ cap, cap + cfg.hdr_size ≤ cfg.max_size →
      ∃ n, dbuf_fit cfg cap = some n ∧ cap + cfg.hdr_size ≤ n ∧
        dbuf_good cfg n ∧
        ∀ m, (∃ k, m = cfg.init_size * 2 ^ k) → cap + cfg.hdr_size ≤ m →
          n ≤ m) ∧
    (∀ cap, cfg.max_size < cap + cfg.hdr_size → dbuf_fit cfg cap = none) := by
  have hdouble : ∀ size, dbuf_good cfg size →
      (2 * size ≤ cfg.max_size → dbuf_double cfg size = some (2 * size)) ∧
      (cfg.max_size < 2 * size → dbuf_double cfg size = none) := by
    intro size ⟨hle, _⟩
    have hmod : size * 2 % U32 = 2 * size := by
      rw [Nat.mod_eq_of_lt (by omega)]
      omega
    constructor
    · intro h2
      unfold dbuf_double
      rw [hmod, if_neg (by omega)]
    · intro h2
      unfold dbuf_double
      rw [hmod, if_pos (by omega)]
  have hfit : ∀ cap, ∀ n, dbuf_fit cfg cap = some n → dbuf_good cfg n := by
    intro cap n hn
    unfold dbuf_fit at hn
    by_cases ht : cfg.max_size < cap + cfg.hdr_size
    · rw [if_pos ht] at hn
      cases hn
    · rw [if_neg ht] at hn
      obtain ⟨i, hi, hge, hmin⟩ := fit_loop_spec (cap + cfg.hdr_size)
        (cap + cfg.hdr_size + 1) cfg.init_size hinit (by omega)
      have hip : i ≤ p := by
        apply hmin
        rw [← hmax]
        exact Nat.le_of_not_lt ht
      injection hn with hn
      refine ⟨?_, ⟨i, by rw [← hn, hi]⟩⟩
      rw [← hn, hi, hmax]
      exact Nat.mul_le_mul_left _ (Nat.pow_le_pow_right (by omega) hip)
  refine ⟨hdouble, ?_, ?_, ?_⟩
  · intro ops
    induction ops with
    | nil => intro size hg; exact hg
    | cons op rest ih =>
      intro size hg
      apply ih
      cases op with
      | double =>
        obtain ⟨hle, k, hk⟩ := hg
        show dbuf_good cfg (dbuf_apply cfg size .double)
        unfold dbuf_apply
        by_cases h2 : 2 * size ≤ cfg.max_size
        · rw [(hdouble size ⟨hle, k, hk⟩).1 h2]
          exact ⟨h2, ⟨k + 1, by rw [hk]; ring⟩⟩
        · rw [(hdouble size ⟨hle, k, hk⟩).2 (by omega)]
          exact ⟨hle, k, hk⟩
      | fit cap =>
        rcases hf : dbuf_fit cfg cap with _ | n
        · simpa [dbuf_apply, hf] using hg
        · simpa [dbuf_apply, hf] using hfit cap n hf
      | shrink =>
        refine ⟨?_, ⟨0, by simp [dbuf_apply, dbuf_shrink]⟩⟩
        simp only [dbuf_apply, dbuf_shrink]
        rw [hmax]
        calc cfg.init_size = cfg.init_size * 1 := by ring
          _ ≤ cfg.init_size * 2 ^ p :=
            Nat.mul_le_mul_left _ (Nat.one_le_two_pow)
  · intro cap hle
    obtain ⟨i, hi, hge, hmin⟩ := fit_loop_spec (cap + cfg.hdr_size)
      (cap + cfg.hdr_size + 1) cfg.init_size hinit (by omega)
    have hfe : dbuf_fit cfg cap =
        some (fit_loop (cap + cfg.hdr_size)
          (cap + cfg.hdr_size + 1) cfg.init_size) := by
      unfold dbuf_fit
      rw [if_neg (by omega)]
    refine ⟨_, hfe, ?_, hfit cap _ hfe, ?_⟩
    · rw [hi]
      exact hge
    · intro m ⟨k, hk⟩ hm
      rw [hi, hk]
      apply Nat.mul_le_mul_left
      apply Nat.pow_le_pow_right (by omega)
      apply hmin
      rw [← hk]
      exact hm
  · intro cap hgt
    unfold dbuf_fit
    rw [if_pos hgt]

/-- C7 witness: with init 16 and max 64, doubling 32 gives 64, the
invariant survives a concrete double/fit/shrink/double run from the
initial size, and a fit request whose cap plus header exceeds max_size
is refused. -/
theorem c7_dbuf_bounded_quantized_witness :
    0 < (16 : Nat) ∧ (64 : Nat) = 16 * 2 ^ 2 ∧ 2 * 64 < U32 ∧
    dbuf_double ⟨16, 64, 40⟩ 32 = some (2 * 32) ∧
    dbuf_good ⟨16, 64, 40⟩
      (dbuf_run ⟨16, 64, 40⟩ 16 [.double, .fit 20, .shrink, .double]) ∧
    dbuf_fit ⟨16, 64, 40⟩ 4294967295 = none :=
  ⟨by decide, by decide, by decide,
    ((c7_dbuf_bounded_quantized ⟨16, 64, 40⟩ 2 (by decide) (by decide)
      (by decide)).1 32 ⟨by decide, 1, by decide⟩).1 (by decide),
    (c7_dbuf_bounded_quantized ⟨16, 64, 40⟩ 2 (by decide) (by decide)
      (by decide)).2.1 [.double, .fit 20, .shrink, .double] 16
      ⟨by decide, 0, by decide⟩,
    (c7_dbuf_bounded_quantized ⟨16, 64, 40⟩ 2 (by decide) (by decide)
      (by decide)).2.2.2 4294967295 (by decide)⟩

